import Mathlib

/-!
Verification development for a repository of three site-specific crawler
scripts (`sifang_crawler.py`, `美图色色.py`, `爬取ku1372的所有图集.py`).

Each Python function that a claim depends on is embedded shallowly as an
executable Lean definition.  External effects (HTTP responses, exceptions,
crashes during a streaming write) are passed in as explicit environment
parameters; the filesystem is restricted to the two paths a download touches
(the destination path and its `.tmp` sibling), and every mutation of those
paths is recorded in a trace so that atomicity statements can quantify over
all intermediate states.
-/

set_option maxRecDepth 4000

namespace Pystr

/-!
Embeddings of the Python `str` operations the scripts use (`in`,
`startswith`, `strip`, `split`, `int(...)`), written as structural
recursion over the character list so that every definition evaluates
inside the kernel.
-/

/-- Whether the first list is a prefix of the second
(`str.startswith`). -/
def isPrefixOfL : List Char → List Char → Bool
  | [], _ => true
  | _ :: _, [] => false
  | p :: ps, c :: cs => p == c && isPrefixOfL ps cs

/-- Python's `pat in s` substring test. -/
def containsL (pat : List Char) : List Char → Bool
  | [] => pat.isEmpty
  | c :: cs => isPrefixOfL pat (c :: cs) || containsL pat cs

/-- Python's `s.split(sep)` for a one-character separator. -/
def splitOnChar (sep : Char) : List Char → List Char → List (List Char)
  | [], acc => [acc.reverse]
  | c :: rest, acc =>
    if c == sep then acc.reverse :: splitOnChar sep rest []
    else splitOnChar sep rest (c :: acc)

/-- Python's `s.split("#$")`, the screenshot separator of
`_parse_album_images`. -/
def splitHashDollar : List Char → List Char → List (List Char)
  | [], acc => [acc.reverse]
  | '#' :: '$' :: rest, acc => acc.reverse :: splitHashDollar rest []
  | c :: rest, acc => splitHashDollar rest (c :: acc)

/-- The whitespace set of Python's `str.strip()` (the characters the
scripts' inputs can carry). -/
def isSpaceC (c : Char) : Bool := c == ' ' || c == '\t' || c == '\n' || c == '\r'

/-- Python's `s.strip()`. -/
def trimL (l : List Char) : List Char :=
  ((l.dropWhile isSpaceC).reverse.dropWhile isSpaceC).reverse

/-- Decimal digit value of a character. -/
def digitVal (c : Char) : Option Nat :=
  if c.isDigit then some (c.toNat - Char.toNat '0') else none

/-- Accumulating decimal parse. -/
def toNatAux : List Char → Nat → Option Nat
  | [], acc => some acc
  | c :: cs, acc =>
    match digitVal c with
    | some d => toNatAux cs (acc * 10 + d)
    | none => none

/-- Python's `int(s)` on a nonnegative decimal string, `none` where the
Python call raises `ValueError`. -/
def toNatL : List Char → Option Nat
  | [] => none
  | l => toNatAux l 0

/-- `s.startswith(pre)` on Lean strings. -/
def startsWithS (s pre : String) : Bool := isPrefixOfL pre.data s.data

end Pystr

namespace Crawler

/-- Body of a fetched resource, as seen by the PIL-based validator:
`Image.open(...).verify()` succeeds exactly on `validImage`. -/
inductive Body
  | validImage
  | corruptImage
  | htmlPage
deriving DecidableEq

/-- State of one filesystem path.  `halfWritten` is a file whose streaming
write was started but not finished. -/
inductive FileState
  | absent
  | halfWritten
  | written (b : Body)
deriving DecidableEq

/-- The two paths `download_image` in `sifang_crawler.py` can touch:
`save_path` (`dest`) and `save_path + '.tmp'` (`tmp`). -/
structure FS where
  dest : FileState
  tmp : FileState
deriving DecidableEq

/-- Embeds `is_image_corrupted` / `_validate_image` (PIL open + verify) as a
predicate on a file state: opening an absent or half-written file raises, a
decodable file is exactly a `validImage`. -/
def is_image_corrupted : FileState → Bool
  | .written .validImage => false
  | _ => true

end Crawler

namespace Sifang

open Crawler

/-! ### Link extraction and de-duplication (`get_album_images`, lines 543-605)

The per-image filtering in `get_album_images` is a chain of BeautifulSoup
heuristics; the candidates that survive the filters on one album page, in
document order, are taken here as the page's input list.  What the claims
speak about is the guard

    if src not in page_images and src not in all_image_links:
        page_images.append(src)

and the accumulation `all_image_links.extend(page_images)`, which are
embedded verbatim below. -/

/-- One iteration of the candidate loop in `get_album_images`: append `src`
to the current page's result list `acc` only when it is in neither `acc`
(`page_images`) nor `all` (`all_image_links`). -/
def addImage (all acc : List String) (src : String) : List String :=
  if src ∈ acc ∨ src ∈ all then acc else acc ++ [src]

/-- The `page_images` list produced for one album page whose surviving
candidates are `cands`, given the urls `all` collected from prior pages. -/
def page_images (all : List String) (cands : List String) : List String :=
  cands.foldl (fun acc src => addImage all acc src) []

/-- The final `all_image_links` list for an album whose pages yield the
candidate lists `pages`: each page's deduplicated result is appended to the
running list (`all_image_links.extend(page_images)`). -/
def all_image_links (pages : List (List String)) : List String :=
  pages.foldl (fun all cands => all ++ page_images all cands) []

/-! ### `download_image` (lines 627-704)

The environment of one run is a stream `env : Nat → Outcome` giving, for the
n-th `session.get` attempt, either a raised `requests` exception or a
response (content type, decoded body, and whether the streaming write of the
body to the temp file runs to completion — `writeOk = false` is a simulated
crash in the middle of the chunk loop). -/

/-- Outcome of one `session.get(image_url, ...)` attempt inside
`download_image`. -/
inductive Outcome
  | raisedExn
  | resp (contentType : String) (b : Body) (writeOk : Bool)

/-- Result of a `download_image` run: the Python function returns
`True`/`False`; `crashed` is a run cut short by a simulated write crash. -/
inductive DlResult
  | ok
  | failed
  | crashed
deriving DecidableEq

/-- A finished run: Python-level result, final filesystem, the trace of
every intermediate filesystem state (in order, recorded after each
mutation), and how many `session.get` attempts were made. -/
structure DlRun where
  result : DlResult
  fs : FS
  states : List FS
  fetches : Nat
deriving DecidableEq

/-- The retry loop `for retry in range(max_retries)` of `download_image`
(lines 641-702).  `fuel` is the number of loop iterations left (5 at entry),
`idx` indexes the environment stream.  Each attempt: fetch (exceptions are
caught and retried); reject a non-`image/` content type by returning
`False` at once; stream the body to `tmp`; if PIL finds the temp file
corrupt, `os.unlink` it and retry; otherwise `os.replace` it onto `dest`
and return `True`.  Falling out of the loop returns `False`. -/
def download_attempts (env : Nat → Outcome) :
    Nat → Nat → FS → List FS → Nat → DlRun
  | 0, _, fs, tr, n => ⟨.failed, fs, tr, n⟩
  | fuel + 1, idx, fs, tr, n =>
    match env idx with
    | .raisedExn => download_attempts env fuel (idx + 1) fs tr (n + 1)
    | .resp ct b writeOk =>
      if Pystr.startsWithS ct "image/" then
        let fs1 : FS := ⟨fs.dest, .halfWritten⟩
        let tr1 := tr ++ [fs1]
        if writeOk then
          let fs2 : FS := ⟨fs.dest, .written b⟩
          let tr2 := tr1 ++ [fs2]
          if is_image_corrupted (.written b) then
            let fs3 : FS := ⟨fs.dest, .absent⟩
            download_attempts env fuel (idx + 1) fs3 (tr2 ++ [fs3]) (n + 1)
          else
            let fs4 : FS := ⟨.written b, .absent⟩
            ⟨.ok, fs4, tr2 ++ [fs4], n + 1⟩
        else ⟨.crashed, fs1, tr1, n + 1⟩
      else ⟨.failed, fs, tr, n + 1⟩

/-- `download_image(image_url, save_path)` (lines 627-704).  The skip rule
(lines 629-638): an existing destination is reported as success outright
when `verify` is off; with `verify` on it is decode-checked first and only
a corrupt file falls through to the download loop. -/
def download_image (verify : Bool) (env : Nat → Outcome) (fs : FS) : DlRun :=
  if fs.dest = .absent then download_attempts env 5 0 fs [] 0
  else if verify then
    if is_image_corrupted fs.dest then download_attempts env 5 0 fs [] 0
    else ⟨.ok, fs, [], 0⟩
  else ⟨.ok, fs, [], 0⟩

/-! ### `save_completed_album` (lines 128-136) and `download_album`
(lines 706-783) -/

/-- Embeds `save_completed_album`: add the url to the in-memory set and
append it to `completed_albums.txt` unless already recorded. -/
def save_completed_album (record : List String) (url : String) : List String :=
  if url ∈ record then record else record ++ [url]

/-- The persistent and failure state `download_album` manipulates. -/
structure AlbumState where
  record : List String
  failedAlbums : List String
  failedImages : List String
deriving DecidableEq

/-- Embeds `download_album` at the level the record-keeping claims need:
`raised` says whether the `try` body raised (page fetch, `os.makedirs`,
...).  On an exception the album goes to `failed_albums` and the function
returns `False`.  Otherwise every image whose `download_image` future
returned `False` is appended to `failed_images`, the album url is recorded
via `save_completed_album`, cookies are saved, and the function returns
`True` — regardless of how many images failed. -/
def download_album (st : AlbumState) (albumUrl : String) (raised : Bool)
    (imageUrls : List String) (results : String → Bool) : Bool × AlbumState :=
  if raised then
    (false, { st with failedAlbums := st.failedAlbums ++ [albumUrl] })
  else
    (true,
      { record := save_completed_album st.record albumUrl
        failedAlbums := st.failedAlbums
        failedImages := st.failedImages ++ imageUrls.filter (fun u => ¬ results u) })

/-! ### `retry_request` (lines 163-237) -/

/-- Outcome of one `session.request` inside `retry_request`: a raised
`requests.RequestException`, a 443 status (handled before
`raise_for_status`), a response that redirected off `sifang.lat`, or a
good on-domain response. -/
inductive ReqOutcome
  | exn
  | status443
  | okOffDomain
  | ok

/-- Observed status of a `retry_request` run after a given number of loop
iterations: either the function returned (`none` for the off-domain
`return None` and the fall-out-of-the-loop path, `some ()` for a
response), or the loop is still running. -/
inductive ReqRunResult
  | returned (r : Option Unit)
  | running
deriving DecidableEq

/-- The `while retries < max_retries` loop of `retry_request`.  On an
exception the counter is incremented; when it reaches `maxRetries` the code
blocks on `input()` and RESETS the counter to 0 (lines 226-230) instead of
returning; only the 443 branch increments the counter without a reset, so
only it can make the `while` condition fail (after which the function body
ends and Python returns `None`). -/
def retry_request_loop (maxRetries : Nat) (env : Nat → ReqOutcome) :
    Nat → Nat → Nat → ReqRunResult
  | 0, _, _ => .running
  | fuel + 1, retries, idx =>
    if retries < maxRetries then
      match env idx with
      | .status443 => retry_request_loop maxRetries env fuel (retries + 1) (idx + 1)
      | .okOffDomain => .returned none
      | .ok => .returned (some ())
      | .exn =>
        if retries + 1 ≥ maxRetries then
          retry_request_loop maxRetries env fuel 0 (idx + 1)
        else
          retry_request_loop maxRetries env fuel (retries + 1) (idx + 1)
    else .returned none

/-- `retry_request(url, max_retries=5)`, observed for `fuel` loop
iterations. -/
def retry_request (env : Nat → ReqOutcome) (fuel : Nat) : ReqRunResult :=
  retry_request_loop 5 env fuel 0 0

/-! ### `get_next_page` (lines 297-366) and the listing loop of
`crawl_albums` (lines 804-835)

An anchor tag is carried as the data `get_next_page` inspects: the full
serialization `str(a)` used by the arrow-pattern test, the page number
parsed by `parse_qs` from its href when the href contains `page=` and the
value parses as an int (`none` otherwise — the `ValueError` branch), and
`urljoin(page_url, href)`.  Query-string handling (`urlparse`/`parse_qs`/
`urlencode`) is embedded for single-`?`, `&`-separated queries, which covers
the URLs of this site. -/

structure Anchor where
  repr : String
  hrefPage : Option Nat
  resolved : String
deriving DecidableEq

/-- Substring test (`pattern in str(a)` / `'sifang.lat' in next_url`). -/
def containsSub (s pat : String) : Bool := Pystr.containsL pat.data s.data

/-- The fixed pattern list of lines 306 and 399. -/
def arrowPatterns : List String := ["→", "›", "»", "下一页", "Next", "next", "more"]

/-- Strategy 1 test: `any(pattern in str(a) for pattern in arrow_patterns)`. -/
def isArrowAnchor (a : Anchor) : Bool :=
  arrowPatterns.any (fun p => containsSub a.repr p)

/-- `int(parse_qs(urlparse(page_url).query).get('page', ['1'])[0])` for a
well-formed single-`?` URL. -/
def pageParam (url : String) : Nat :=
  match Pystr.splitOnChar '?' url.data [] with
  | _ :: q :: _ =>
    (((Pystr.splitOnChar '&' q []).findSome? (fun kv =>
      if Pystr.isPrefixOfL "page=".data kv then Pystr.toNatL (kv.drop 5)
      else none)).getD 1)
  | _ => 1

/-- The URL part before the query, used to rebuild the synthesized
next-page URL of lines 357-363. -/
def baseOf (url : String) : String :=
  String.mk ((Pystr.splitOnChar '?' url.data []).headD url.data)

/-- The synthesized next-page URL
`f"{scheme}://{netloc}{path}?{urlencode(params)}"` with `page` set to `n`
(other query parameters of the toy URLs here: none). -/
def synthUrl (url : String) (n : Nat) : String :=
  baseOf url ++ "?page=" ++ toString n

/-- Embeds `get_next_page(page_url, soup)`: (1) the first anchor matching
an arrow pattern anywhere in its serialization; (2) otherwise the first
anchor whose href page number is `current + 1`; if either is found, return
its resolved href when it contains `sifang.lat`, else `None`; (3) otherwise
synthesize `page = current + 1` when that does not exceed the largest page
number seen on the page; (4) otherwise `None`.  There is no check against
pages already visited. -/
def get_next_page (pageUrl : String) (anchors : List Anchor) : Option String :=
  let currentPage := pageParam pageUrl
  let nextButton :=
    match anchors.find? isArrowAnchor with
    | some a => some a
    | none => anchors.find? (fun a => a.hrefPage = some (currentPage + 1))
  match nextButton with
  | some a => if containsSub a.resolved "sifang.lat" then some a.resolved else none
  | none =>
    let maxPage := anchors.foldl
      (fun m a => match a.hrefPage with
        | some p => if p > m then p else m
        | none => m) currentPage
    if currentPage + 1 ≤ maxPage then some (synthUrl pageUrl (currentPage + 1))
    else none

/-- The listing loop of `crawl_albums` (lines 808-832), with `site` giving
the anchors of each successfully fetched page: visit the current page,
move to `get_next_page` of it, stop on `None`.  The loop keeps NO set of
visited URLs.  `fuel` bounds the observation window; the returned list is
the pages visited. -/
def sifang_visit (site : String → List Anchor) : Option String → Nat → List String
  | none, _ => []
  | some _, 0 => []
  | some u, fuel + 1 => u :: sifang_visit site (get_next_page u (site u)) fuel

/-- The queueing filter of `crawl_albums` (lines 822-824): an album url is
put on the download queue only if it is not in `completed_albums`. -/
def enqueue_albums (completed : List String) (albums : List String) : List String :=
  albums.filter (fun u => ¬ u ∈ completed)

/-! ### Name resolution in `download` (lines 785-966)

Line 887 reads `total_albums` inside an f-string.  Python resolves a bare
name against the function's local variables, then the module globals, then
the builtins; the three lists below are transcribed from the source
(assignment targets and `import`/`def` statements inside `download`, the
module top level, and the builtins the script uses). -/

/-- Local names bound anywhere in the body of `SifangCrawler.download`
(parameters, assignments, inner `import`s and `def`s). -/
def download_locals : List String :=
  ["self", "queue", "album_queue", "threading", "crawl_complete",
   "crawl_albums", "crawl_thread", "futures", "album_item", "future",
   "done", "result", "e", "retry_input", "i", "failed_album",
   "success_count", "img_index", "progress", "failed_log_file", "f",
   "album", "img", "failed_image"]

/-- Module-level names of `sifang_crawler.py` (imports, module constants,
the class and `main`). -/
def module_globals : List String :=
  ["os", "sys", "time", "random", "requests", "concurrent", "threading",
   "BeautifulSoup", "urljoin", "urlparse", "parse_qs", "urlencode", "Image",
   "io", "json", "argparse", "logging", "logger", "DEFAULT_SAVE_PATH",
   "SifangCrawler", "main", "__name__"]

/-- The Python builtins the script refers to. -/
def py_builtins : List String :=
  ["print", "input", "len", "int", "str", "open", "enumerate", "range",
   "set", "any", "isinstance"]

/-- Python name lookup for a bare name inside `download`. -/
def resolvesName (n : String) : Bool :=
  download_locals.contains n || module_globals.contains n || py_builtins.contains n

/-- Result of running the code after the executor block of `download`
(lines 882-966): the first statement whose evaluation needs an unresolvable
name raises `NameError`; only if all of lines 885-896 evaluate does control
reach the `input()` retry prompt of line 899 (and, behind it, the
`failed_items.log` write). -/
inductive EpilogueResult
  | nameError (n : String)
  | reachedRetryPrompt
deriving DecidableEq

/-- The end-of-run summary: line 887 is the first statement after the
executor block that reads a bare name (`total_albums`) other than `self`
and the logging machinery. -/
def download_epilogue : EpilogueResult :=
  if resolvesName "total_albums" then .reachedRetryPrompt
  else .nameError "total_albums"

end Sifang

namespace Meitu

open Crawler

/-! ### `_get_response` (`美图色色.py` lines 48-76)

`env i = true` means the i-th `session.get` + `raise_for_status` of this
call succeeds.  The loop `for i in range(retries)` returns the response on
the first success; on the last failed attempt it returns `None`. -/

/-- The body of `_get_response`'s loop: `rem` iterations left, `i` the
current index; returns the Python result together with the number of
attempts actually made. -/
def get_response_loop (env : Nat → Bool) : Nat → Nat → Option Unit × Nat
  | _, 0 => (none, 0)
  | i, rem + 1 =>
    if env i then (some (), 1)
    else
      let (r, n) := get_response_loop env (i + 1) rem
      (r, n + 1)

/-- `_get_response(url, retries=5)`. -/
def get_response (env : Nat → Bool) : Option Unit × Nat :=
  get_response_loop env 0 5

/-! ### `_download_image` (lines 163-231) -/

/-- A response as `_download_image` sees it after `_get_response`: content
type header and decoded body. -/
structure HttpResponse where
  contentType : String
  body : Body
deriving DecidableEq

/-- Result of a `_download_image` run: Python result, final filesystem,
number of `_get_response` calls made, and the `(img_url)` entries appended
to `self.failed_images`. -/
structure MtRun where
  result : Bool
  fs : FS
  fetches : Nat
  failed : List String
deriving DecidableEq

/-- Embeds `_download_image(img_url, save_path)`.  Line 164: an existing
destination file returns `True` at once — `self.verify` is NOT consulted
and the file is not decoded.  Otherwise: fetch (`none` = `_get_response`
exhausted its retries), reject non-`image/` content types, write
`save_path + ".tmp"` (`writeOk = false` is the caught write exception of
lines 200-203, which leaves the temp file behind), decode-validate the temp
file only when `verify` is set (removing it on failure), then `os.rename`
onto the destination.  Every failure path appends to `failed_images`; no
path retries the download. -/
def download_image (verify : Bool) (fetch : Option HttpResponse)
    (writeOk : Bool) (fs : FS) (imgUrl : String) : MtRun :=
  if fs.dest = .absent then
    match fetch with
    | none => ⟨false, fs, 1, [imgUrl]⟩
    | some r =>
      if Pystr.startsWithS r.contentType "image/" then
        if writeOk then
          if verify then
            if is_image_corrupted (.written r.body) then
              ⟨false, ⟨fs.dest, .absent⟩, 1, [imgUrl]⟩
            else ⟨true, ⟨.written r.body, .absent⟩, 1, []⟩
          else ⟨true, ⟨.written r.body, .absent⟩, 1, []⟩
        else ⟨false, ⟨fs.dest, .halfWritten⟩, 1, [imgUrl]⟩
      else ⟨false, fs, 1, [imgUrl]⟩
  else ⟨true, fs, 0, []⟩

/-- Embeds the screenshot-splitting loop of `_parse_album_images`
(`美图色色.py` lines 140-146): split `data-screenshots` on `"#$"`, strip each
piece, drop empty pieces, strip one leading `'$'`.  Note there is no
membership check before `images.append(img_url)`. -/
def parse_screenshots (screenshots : String) : List String :=
  (Pystr.splitHashDollar screenshots.data []).foldl
    (fun acc s =>
      let t := Pystr.trimL s
      if t.isEmpty then acc
      else if Pystr.isPrefixOfL ['$'] t then acc ++ [String.mk (t.drop 1)]
      else acc ++ [String.mk t])
    []

/-! ### `_parse_album_images` (lines 123-153) and its callers -/

/-- The part of an album page that `_parse_album_images` looks at: whether
`soup.select_one("#book-pages")` finds the container, and its
`data-screenshots` attribute (the `.get(..., "")` default). -/
structure AlbumPage where
  hasBookPages : Bool
  screenshots : String
deriving DecidableEq

/-- Embeds `_parse_album_images(album_url)` with the `_get_response` result
passed in.  Line 128 runs `response.text` with NO `None` guard: a `None`
fetch result raises `AttributeError` (modeled as `Except.error`).  With a
response, a missing container or empty screenshot attribute yields `[]`,
otherwise the split list. -/
def parse_album_images (fetched : Option AlbumPage) : Except String (List String) :=
  match fetched with
  | none => .error "AttributeError"
  | some page =>
    if ¬ page.hasBookPages then .ok []
    else if page.screenshots = "" then .ok []
    else .ok (parse_screenshots page.screenshots)

/-- Embeds the head of `_download_album` (lines 233-247) as far as the
failure bookkeeping goes: an exception out of `_parse_album_images`
propagates (nothing recorded), an empty image list appends the album to
`self.failed_albums` and returns `False`, otherwise the downloads proceed
and the function returns `True`. -/
def download_album (fetched : Option AlbumPage) (selfFailedAlbums : List String)
    (album : String) : Except String (Bool × List String) :=
  match parse_album_images fetched with
  | .error e => .error e
  | .ok [] => .ok (false, selfFailedAlbums ++ [album])
  | .ok (_ :: _) => .ok (true, selfFailedAlbums)

/-- Embeds the result handling of `run` (lines 365-371): a future that
raised is only logged — `self.failed_albums` is left as the album task left
it, which for an `AttributeError` out of `_parse_album_images` means
unchanged. -/
def run_collect (r : Except String (Bool × List String))
    (selfFailedAlbums : List String) : List String :=
  match r with
  | .error _ => selfFailedAlbums
  | .ok (_, fa) => fa

/-! ### The listing loop of `run` (lines 315-344)

Pages are abstracted to their index; `nextOf u` is the page the
`.paging-item--next` link of page `u` points at (`none` when absent).  The
loop keeps `processed_urls` and stops when the next page was already
processed. -/

/-- One run of the `while current_url and current_url not in
processed_urls` loop, observed for `fuel` iterations; returns the pages
visited in order. -/
def visit (nextOf : Nat → Option Nat) : Nat → List Nat → Option Nat → List Nat
  | 0, _, _ => []
  | _ + 1, _, none => []
  | fuel + 1, processed, some u =>
    if u ∈ processed then []
    else
      let processed' := processed ++ [u]
      let nxt : Option Nat :=
        match nextOf u with
        | some n => if n ∈ processed' then none else some n
        | none => none
      u :: visit nextOf fuel processed' nxt

/-- The synthetic listing of the pagination-termination scenario: `N` pages
`1, ..., N`, page `i < N` links to `i + 1`, page `N` has no next link. -/
def chain (N : Nat) (i : Nat) : Option Nat :=
  if i + 1 ≤ N then some (i + 1) else none

end Meitu

namespace Ku

/-! ### `download_album_wrapper` (`爬取ku1372的所有图集.py` lines 437-598)

This variant downloads one zip archive per album and streams it DIRECTLY to
the final `save_path` — there is no temporary file.  Only after the write
completes does it sniff the first bytes for HTML markers and check the file
size, deleting the file and retrying (up to 5 attempts) when a check
fails. -/

/-- State of the single path the wrapper writes (`<tag_dir>/<name>.zip`).
`saved isHtml size` is a completely written file: `isHtml` says whether its
first bytes carry the HTML markers of line 535, `size` is
`os.path.getsize`. -/
inductive KuFile
  | absent
  | halfWritten
  | saved (isHtml : Bool) (size : Nat)
deriving DecidableEq

/-- Outcome of one attempt of the wrapper's retry loop: the album page has
no download link; the `session.get`/`raise_for_status` raised; the process
stopped in the middle of the chunk loop writing `save_path`; or a fully
received response with the declared `content-length` and the actual byte
count written. -/
inductive KuOutcome
  | linkFail
  | raisedExn
  | writeCrash
  | resp (isHtml : Bool) (contentLength : Nat) (finalSize : Nat)

/-- A finished run: Python result (`none` when the simulated crash cut the
run short), final state of `save_path`, the trace of every state the path
went through, and the number of archive `session.get` attempts. -/
structure KuRun where
  result : Option Bool
  dest : KuFile
  states : List KuFile
  fetches : Nat
deriving DecidableEq

/-- `|final_size - total_size|` of line 560 on naturals. -/
def sizeGap (a b : Nat) : Nat := if a ≥ b then a - b else b - a

/-- The `while retry_count < max_retries` loop (lines 470-592).  Each
attempt: resolve the download link (a missing link returns `False`
immediately, line 474-478); stream the response into `save_path` (the path
first becomes half-written, then fully written); remove the file and retry
when the body is an HTML error page (lines 533-543), smaller than 1 KiB
(lines 549-557), or more than 1 KiB away from the declared length (lines
560-568); otherwise return `True`.  A raised request exception removes the
file if present and retries.  Exhausting the 5 attempts returns `False`
(lines 594-598). -/
def wrapper_attempts (env : Nat → KuOutcome) :
    Nat → Nat → KuFile → List KuFile → Nat → KuRun
  | 0, _, d, tr, n => ⟨some false, d, tr, n⟩
  | fuel + 1, idx, d, tr, n =>
    match env idx with
    | .linkFail => ⟨some false, d, tr, n⟩
    | .raisedExn =>
      if d ≠ .absent then
        wrapper_attempts env fuel (idx + 1) .absent (tr ++ [.absent]) (n + 1)
      else
        wrapper_attempts env fuel (idx + 1) d tr (n + 1)
    | .writeCrash => ⟨none, .halfWritten, tr ++ [.halfWritten], n + 1⟩
    | .resp isHtml contentLength finalSize =>
      let tr1 := tr ++ [.halfWritten]
      let d2 : KuFile := .saved isHtml finalSize
      let tr2 := tr1 ++ [d2]
      if isHtml then
        wrapper_attempts env fuel (idx + 1) .absent (tr2 ++ [.absent]) (n + 1)
      else if finalSize < 1024 then
        wrapper_attempts env fuel (idx + 1) .absent (tr2 ++ [.absent]) (n + 1)
      else if contentLength > 0 ∧ sizeGap finalSize contentLength > 1024 then
        wrapper_attempts env fuel (idx + 1) .absent (tr2 ++ [.absent]) (n + 1)
      else ⟨some true, d2, tr2, n + 1⟩

/-- `download_album_wrapper(album, tag_dir, verify, tag_name)` for a
destination that does not yet exist, so the pre-existing-file branch of
lines 447-464 falls through and the run is the retry loop with
`max_retries = 5`. -/
def download_album_wrapper (env : Nat → KuOutcome) : KuRun :=
  wrapper_attempts env 5 0 .absent [] 0

end Ku

/-- Modelled from the spec: "the final image list contains no duplicate URL
and preserves first-seen order".  Keeps the first occurrence of every
element of `l`, in order; the sifang extractor is compared against this. -/
def spec_first_seen (l : List String) : List String :=
  l.foldl (fun acc src => if src ∈ acc then acc else acc ++ [src]) []

/-! ## Helper lemmas -/

open Crawler

/-- One page step of the sifang extractor, seen from the accumulated list:
prefixing the prior urls turns the two-membership guard into the single
first-seen guard. -/
lemma sifang_page_step (cands : List String) :
    ∀ all acc : List String,
      all ++ cands.foldl (fun a s => Sifang.addImage all a s) acc =
        cands.foldl (fun a s => if s ∈ a then a else a ++ [s]) (all ++ acc) := by
  induction cands with
  | nil => intro all acc; rfl
  | cons src rest ih =>
    intro all acc
    simp only [List.foldl_cons]
    rw [ih]
    congr 1
    simp only [Sifang.addImage, List.mem_append]
    by_cases h1 : src ∈ acc
    · simp [h1]
    · by_cases h2 : src ∈ all
      · simp [h1, h2]
      · simp [h1, h2, List.append_assoc]

/-- The extractor's accumulation over all pages equals the first-seen fold
over the concatenated candidates. -/
lemma sifang_all_pages (pages : List (List String)) :
    Sifang.all_image_links pages = spec_first_seen pages.flatten := by
  unfold Sifang.all_image_links spec_first_seen
  rw [List.foldl_flatten]
  have h : ∀ (ps : List (List String)) (acc : List String),
      ps.foldl (fun all cands => all ++ Sifang.page_images all cands) acc =
        ps.foldl (fun b l => l.foldl (fun a s => if s ∈ a then a else a ++ [s]) b) acc := by
    intro ps
    induction ps with
    | nil => intro acc; rfl
    | cons p rest ih =>
      intro acc
      simp only [List.foldl_cons, Sifang.page_images]
      rw [sifang_page_step p acc []]
      simp only [List.append_nil]
      exact ih _
  exact h pages []

/-- A run of the sifang download retry loop that does not end in `ok` never
changes the destination path: every recorded filesystem state still has the
initial `dest`. -/
lemma sifang_attempts_not_ok (env : Nat → Sifang.Outcome) :
    ∀ (fuel idx : Nat) (fs : FS) (tr : List FS) (n : Nat),
      (∀ s ∈ tr, s.dest = fs.dest) →
      (Sifang.download_attempts env fuel idx fs tr n).result ≠ .ok →
      (Sifang.download_attempts env fuel idx fs tr n).fs.dest = fs.dest ∧
      ∀ s ∈ (Sifang.download_attempts env fuel idx fs tr n).states, s.dest = fs.dest := by
  intro fuel
  induction fuel with
  | zero =>
    intro idx fs tr n htr _
    exact ⟨rfl, htr⟩
  | succ fuel ih =>
    intro idx fs tr n htr hres
    simp only [Sifang.download_attempts] at hres ⊢
    cases henv : env idx with
    | raisedExn =>
      simp only [henv] at hres ⊢
      exact ih (idx + 1) fs tr (n + 1) htr hres
    | resp ct b w =>
      simp only [henv] at hres ⊢
      cases hct : Pystr.startsWithS ct "image/" with
      | false => exact ⟨rfl, htr⟩
      | true =>
        rw [hct] at hres
        cases w with
        | false =>
          refine ⟨rfl, ?_⟩
          intro s hs
          rcases List.mem_append.mp hs with h | h
          · exact htr s h
          · rcases List.mem_singleton.mp h with rfl; rfl
        | true =>
          cases b with
          | validImage =>
            simp only [eq_self_iff_true, if_true, Crawler.is_image_corrupted,
              Bool.false_eq_true, if_false] at hres
            exact absurd rfl hres
          | corruptImage =>
            simp only [eq_self_iff_true, if_true, Crawler.is_image_corrupted] at hres
            refine ih (idx + 1) ⟨fs.dest, .absent⟩
              (tr ++ [⟨fs.dest, .halfWritten⟩] ++ [⟨fs.dest, .written .corruptImage⟩] ++
                [⟨fs.dest, .absent⟩]) (n + 1) ?_ hres
            intro s hs
            simp only [List.mem_append, List.mem_singleton] at hs
            rcases hs with ((h | rfl) | rfl) | rfl
            · exact htr s h
            all_goals rfl
          | htmlPage =>
            simp only [eq_self_iff_true, if_true, Crawler.is_image_corrupted] at hres
            refine ih (idx + 1) ⟨fs.dest, .absent⟩
              (tr ++ [⟨fs.dest, .halfWritten⟩] ++ [⟨fs.dest, .written .htmlPage⟩] ++
                [⟨fs.dest, .absent⟩]) (n + 1) ?_ hres
            intro s hs
            simp only [List.mem_append, List.mem_singleton] at hs
            rcases hs with ((h | rfl) | rfl) | rfl
            · exact htr s h
            all_goals rfl

/-- A run of the sifang download retry loop that returns `True` ends with a
decodable image at the destination and no temp file. -/
lemma sifang_attempts_ok (env : Nat → Sifang.Outcome) :
    ∀ (fuel idx : Nat) (fs : FS) (tr : List FS) (n : Nat),
      (Sifang.download_attempts env fuel idx fs tr n).result = .ok →
      (Sifang.download_attempts env fuel idx fs tr n).fs =
        ⟨.written .validImage, .absent⟩ := by
  intro fuel
  induction fuel with
  | zero =>
    intro idx fs tr n h
    exact absurd h (by simp [Sifang.download_attempts])
  | succ fuel ih =>
    intro idx fs tr n hres
    simp only [Sifang.download_attempts] at hres ⊢
    cases henv : env idx with
    | raisedExn =>
      simp only [henv] at hres ⊢
      exact ih (idx + 1) fs tr (n + 1) hres
    | resp ct b w =>
      simp only [henv] at hres ⊢
      cases hct : Pystr.startsWithS ct "image/" with
      | false =>
        rw [hct] at hres
        simp at hres
      | true =>
        rw [hct] at hres
        cases w with
        | false => simp at hres
        | true =>
          cases b with
          | validImage => rfl
          | corruptImage =>
            simp only [eq_self_iff_true, if_true, Crawler.is_image_corrupted] at hres
            exact ih (idx + 1) ⟨fs.dest, .absent⟩ _ (n + 1) hres
          | htmlPage =>
            simp only [eq_self_iff_true, if_true, Crawler.is_image_corrupted] at hres
            exact ih (idx + 1) ⟨fs.dest, .absent⟩ _ (n + 1) hres

/-- The sifang download retry loop makes at most `fuel` additional fetch
attempts. -/
lemma sifang_attempts_fetches (env : Nat → Sifang.Outcome) :
    ∀ (fuel idx : Nat) (fs : FS) (tr : List FS) (n : Nat),
      (Sifang.download_attempts env fuel idx fs tr n).fetches ≤ n + fuel := by
  intro fuel
  induction fuel with
  | zero =>
    intro idx fs tr n
    simp [Sifang.download_attempts]
  | succ fuel ih =>
    intro idx fs tr n
    simp only [Sifang.download_attempts]
    cases henv : env idx with
    | raisedExn =>
      exact le_trans (ih (idx + 1) fs tr (n + 1)) (by omega)
    | resp ct b w =>
      simp only
      cases hct : Pystr.startsWithS ct "image/" with
      | false =>
        show n + 1 ≤ n + (fuel + 1)
        omega
      | true =>
        cases w with
        | false =>
          show n + 1 ≤ n + (fuel + 1)
          omega
        | true =>
          cases b with
          | validImage =>
            show n + 1 ≤ n + (fuel + 1)
            omega
          | corruptImage =>
            exact le_trans (ih (idx + 1) ⟨fs.dest, .absent⟩ _ (n + 1)) (by omega)
          | htmlPage =>
            exact le_trans (ih (idx + 1) ⟨fs.dest, .absent⟩ _ (n + 1)) (by omega)


/-- Entering `download_image` with no file at the destination goes straight
into the retry loop with five attempts. -/
lemma sifang_download_image_absent (verify : Bool) (env : Nat → Sifang.Outcome)
    (t : FileState) :
    Sifang.download_image verify env ⟨.absent, t⟩ =
      Sifang.download_attempts env 5 0 ⟨.absent, t⟩ [] 0 := by
  simp [Sifang.download_image]

/-- With every attempt raising a request exception, the sifang retry loop
never returns: the counter reset of lines 228-230 keeps `retries` below the
bound at every loop entry, so the `while` condition never fails and no
failure value is ever produced. -/
lemma sifang_retry_allExn :
    ∀ (fuel retries idx : Nat), retries < 5 →
      Sifang.retry_request_loop 5 (fun _ => .exn) fuel retries idx = .running := by
  intro fuel
  induction fuel with
  | zero => intro retries idx _; rfl
  | succ fuel ih =>
    intro retries idx h
    simp only [Sifang.retry_request_loop]
    rw [if_pos h]
    by_cases h5 : retries + 1 ≥ 5
    · rw [if_pos h5]
      exact ih 0 (idx + 1) (by omega)
    · rw [if_neg h5]
      exact ih (retries + 1) (idx + 1) (by omega)

/-- `_get_response` makes at most `rem` further attempts. -/
lemma meitu_get_response_attempts (env : Nat → Bool) :
    ∀ (rem i : Nat), (Meitu.get_response_loop env i rem).2 ≤ rem := by
  intro rem
  induction rem with
  | zero => intro i; simp [Meitu.get_response_loop]
  | succ rem ih =>
    intro i
    simp only [Meitu.get_response_loop]
    cases h : env i with
    | true => simp
    | false =>
      have := ih (i + 1)
      rcases hr : Meitu.get_response_loop env (i + 1) rem with ⟨r, n⟩
      rw [hr] at this
      simpa using Nat.succ_le_succ this

/-- When every one of the next `rem` attempts fails, `_get_response`'s loop
falls through to `return None`. -/
lemma meitu_get_response_none (env : Nat → Bool) :
    ∀ (rem i : Nat), (∀ j, j < rem → env (i + j) = false) →
      (Meitu.get_response_loop env i rem).1 = none := by
  intro rem
  induction rem with
  | zero => intro i _; rfl
  | succ rem ih =>
    intro i h
    simp only [Meitu.get_response_loop]
    have h0 : env i = false := by simpa using h 0 (by omega)
    rw [h0]
    simp only [Bool.false_eq_true, if_false]
    have hrec := ih (i + 1) (fun j hj => by
      have hh := h (j + 1) (by omega)
      have he : i + (j + 1) = i + 1 + j := by omega
      rwa [he] at hh)
    rcases hr : Meitu.get_response_loop env (i + 1) rem with ⟨r, n⟩
    rw [hr] at hrec
    exact hrec

/-- `run`'s listing loop never visits a page twice, and never visits a page
in the processed set: the membership guards of lines 324 and 336 cut the
loop as soon as a repeat shows up. -/
lemma meitu_visit_nodup (nextOf : Nat → Option Nat) :
    ∀ (fuel : Nat) (processed : List Nat) (cur : Option Nat),
      (Meitu.visit nextOf fuel processed cur).Nodup ∧
      ∀ u ∈ Meitu.visit nextOf fuel processed cur, u ∉ processed := by
  intro fuel
  induction fuel with
  | zero => intro processed cur; simp [Meitu.visit]
  | succ fuel ih =>
    intro processed cur
    cases cur with
    | none => simp [Meitu.visit]
    | some u =>
      simp only [Meitu.visit]
      by_cases hu : u ∈ processed
      · rw [if_pos hu]; simp
      · rw [if_neg hu]
        obtain ⟨h1, h2⟩ := ih (processed ++ [u])
          (match nextOf u with
           | some n => if n ∈ processed ++ [u] then none else some n
           | none => none)
        refine ⟨List.nodup_cons.mpr ⟨?_, h1⟩, ?_⟩
        · intro hmem
          exact (h2 u hmem) (by simp)
        · intro v hv
          rcases List.mem_cons.mp hv with rfl | hv'
          · exact hu
          · intro hvp
            exact (h2 v hv') (by simp [hvp])

/-- `visit` returns nothing once the current page is `None`. -/
lemma meitu_visit_none (nextOf : Nat → Option Nat) (fuel : Nat)
    (processed : List Nat) :
    Meitu.visit nextOf fuel processed none = [] := by
  cases fuel <;> rfl

/-- On the synthetic `N`-page chain the listing loop, started at page `j`
with `N = j + d` and everything processed so far below `j`, visits exactly
`j, j + 1, ..., j + d`. -/
lemma meitu_visit_chain :
    ∀ (d j fuel : Nat) (processed : List Nat),
      (∀ m ∈ processed, m < j) → d + 1 ≤ fuel →
      Meitu.visit (Meitu.chain (j + d)) fuel processed (some j) =
        List.range' j (d + 1) := by
  intro d
  induction d with
  | zero =>
    intro j fuel processed hp hf
    cases fuel with
    | zero => omega
    | succ fuel =>
      simp only [Meitu.visit]
      rw [if_neg (fun h => absurd (hp j h) (by omega))]
      have hch : Meitu.chain (j + 0) j = none := by
        simp only [Meitu.chain]
        rw [if_neg (by omega)]
      rw [hch]
      simp only
      rw [meitu_visit_none]
      rfl
  | succ d ih =>
    intro j fuel processed hp hf
    cases fuel with
    | zero => omega
    | succ fuel =>
      simp only [Meitu.visit]
      rw [if_neg (fun h => absurd (hp j h) (by omega))]
      have hch : Meitu.chain (j + (d + 1)) j = some (j + 1) := by
        simp only [Meitu.chain]
        rw [if_pos (by omega)]
      rw [hch]
      simp only
      have hmem : ¬ j + 1 ∈ processed ++ [j] := by
        intro hm
        rcases List.mem_append.mp hm with h' | h'
        · exact absurd (hp _ h') (by omega)
        · simp at h'
      rw [if_neg hmem]
      have harith : j + (d + 1) = (j + 1) + d := by omega
      rw [harith]
      rw [ih (j + 1) fuel (processed ++ [j])
        (fun m hm => by
          rcases List.mem_append.mp hm with h' | h'
          · exact Nat.lt_succ_of_lt (hp m h')
          · simp at h'
            omega)
        (by omega)]
      rfl

/-- The first-seen fold never produces a duplicate. -/
lemma spec_first_seen_nodup (l : List String) :
    ∀ acc : List String, acc.Nodup →
      (l.foldl (fun a s => if s ∈ a then a else a ++ [s]) acc).Nodup := by
  induction l with
  | nil => intro acc h; exact h
  | cons src rest ih =>
    intro acc h
    simp only [List.foldl_cons]
    by_cases hm : src ∈ acc
    · rw [if_pos hm]; exact ih acc h
    · rw [if_neg hm]
      refine ih (acc ++ [src]) ?_
      simp [List.nodup_append, h, hm]

/-! ## Claims -/

/-- C6 (amended): in the sifang extractor the final image list of an album
equals the first-seen de-duplication of all surviving candidates across its
pages — no duplicate URL, first-seen order preserved — because every
candidate is checked against both the current page's results and all
previously collected urls.  The 美图色色 extractor named by the same claim
has no such guard; see the counterexample. -/
theorem c6_sifang_dedup_first_seen (pages : List (List String)) :
    Sifang.all_image_links pages = spec_first_seen pages.flatten ∧
    (Sifang.all_image_links pages).Nodup := by
  refine ⟨sifang_all_pages pages, ?_⟩
  rw [sifang_all_pages pages]
  exact spec_first_seen_nodup pages.flatten [] List.nodup_nil

/-- C6 counterexample: `_parse_album_images` in `美图色色.py` (also cited by
the claim) does no de-duplication — a `data-screenshots` attribute naming
the same URL twice produces a final image list with a duplicate. -/
theorem c6_meitu_duplicate_counterexample :
    Meitu.parse_album_images (some ⟨true, "a.jpg#$a.jpg"⟩) =
      Except.ok ["a.jpg", "a.jpg"] ∧
    ¬ (Meitu.parse_screenshots "a.jpg#$a.jpg").Nodup := by
  constructor
  · rfl
  · decide

/-- C9: `total_albums` is bound neither among the locals of
`SifangCrawler.download` nor in the module globals nor in the builtins, so
the summary line after the crawl raises `NameError` and the retry prompt
and `failed_items.log` write behind it are unreachable in a completed
run. -/
theorem c9_download_epilogue_name_error :
    Sifang.download_epilogue = .nameError "total_albums" ∧
    Sifang.download_epilogue ≠ .reachedRetryPrompt ∧
    Sifang.resolvesName "total_albums" = false := by
  decide

/-- C10: when `_get_response` returns `None` for an album page, the
unguarded `response.text` of `_parse_album_images` raises `AttributeError`
instead of returning an empty list, the exception propagates out of
`_download_album`, and `run`'s handler only logs it — the album ends up
neither marked successful nor in the failed-albums list. -/
theorem c10_parse_album_images_attribute_error (fa : List String) (album : String) :
    Meitu.download_album none fa album = .error "AttributeError" ∧
    Meitu.run_collect (Meitu.download_album none fa album) fa = fa := by
  exact ⟨rfl, rfl⟩

/-- C1 counterexample: an album whose single image download failed is still
appended to the progress record by `download_album` — the identifier is in
`completed_albums` although not every image was downloaded and validated,
refuting the if-and-only-if. -/
theorem c1_record_without_all_images_counterexample :
    (Sifang.download_album ⟨[], [], []⟩ "https://sifang.lat/albums/a1" false
        ["img1"] (fun _ => false)).1 = true ∧
    "https://sifang.lat/albums/a1" ∈
      (Sifang.download_album ⟨[], [], []⟩ "https://sifang.lat/albums/a1" false
        ["img1"] (fun _ => false)).2.record ∧
    "img1" ∈
      (Sifang.download_album ⟨[], [], []⟩ "https://sifang.lat/albums/a1" false
        ["img1"] (fun _ => false)).2.failedImages := by
  decide

/-- C1 (amended): the album identifier is appended to the persisted record
exactly when `download_album` completes without raising an exception —
independently of per-image failures, which are sent to the `failed_images`
retry list instead of blocking the record. -/
theorem c1_record_appended_on_pipeline_success (st : Sifang.AlbumState)
    (url : String) (raised : Bool) (urls : List String)
    (results : String → Bool) :
    (Sifang.download_album st url raised urls results).1 = !raised ∧
    (Sifang.download_album st url raised urls results).2.record =
      (if raised then st.record else Sifang.save_completed_album st.record url) ∧
    (raised = false →
      url ∈ (Sifang.download_album st url raised urls results).2.record) := by
  cases raised with
  | true => exact ⟨rfl, rfl, fun h => by cases h⟩
  | false =>
    refine ⟨rfl, rfl, fun _ => ?_⟩
    show url ∈ Sifang.save_completed_album st.record url
    unfold Sifang.save_completed_album
    by_cases h : url ∈ st.record
    · rw [if_pos h]; exact h
    · rw [if_neg h]; simp

/-- C1 witness: at a concrete album the hypothesis (no exception) holds and
the identifier lands in the record. -/
theorem c1_record_appended_on_pipeline_success_witness :
    "albumA" ∈ (Sifang.download_album ⟨[], [], []⟩ "albumA" false []
      (fun _ => true)).2.record := by
  have h := c1_record_appended_on_pipeline_success ⟨[], [], []⟩ "albumA" false []
    (fun _ => true)
  exact h.2.2 rfl

/-- C5 (amended): the sifang `download_image` implements the full skip
rule — existing destination with verification off: success without any
fetch; verification on over a decodable file: success without any fetch;
verification on over a corrupt file: the image is re-downloaded (with a
good response: one fetch, the valid image replaces the corrupt one).  The
美图色色 variant never decodes an existing file; see the
counterexample. -/
theorem c5_sifang_skip_rule (env : Nat → Sifang.Outcome) (t : FileState)
    (b : Crawler.Body) :
    Sifang.download_image false env ⟨.written b, t⟩ =
      ⟨.ok, ⟨.written b, t⟩, [], 0⟩ ∧
    Sifang.download_image true env ⟨.written .validImage, t⟩ =
      ⟨.ok, ⟨.written .validImage, t⟩, [], 0⟩ ∧
    Sifang.download_image true
        (fun _ => Sifang.Outcome.resp "image/jpeg" .validImage true)
        ⟨.written .corruptImage, .absent⟩ =
      ⟨.ok, ⟨.written .validImage, .absent⟩,
        [⟨.written .corruptImage, .halfWritten⟩,
         ⟨.written .corruptImage, .written .validImage⟩,
         ⟨.written .validImage, .absent⟩], 1⟩ := by
  refine ⟨rfl, rfl, by decide⟩

/-- C5 counterexample: with verification enabled and a corrupt file already
at the destination, the 美图色色 `_download_image` reports success without
fetching or re-downloading anything — `if os.path.exists(save_path): return
True` consults neither `self.verify` nor the file's content. -/
theorem c5_meitu_skips_corrupt_counterexample :
    Meitu.download_image true none true ⟨.written .corruptImage, .absent⟩ "img" =
      ⟨true, ⟨.written .corruptImage, .absent⟩, 0, []⟩ := by
  decide

/-- One attempt answered with a non-image content type ends the sifang
download loop at once with `False`, touching no path. -/
lemma sifang_attempts_nonimage (env : Nat → Sifang.Outcome) (fuel idx : Nat)
    (fs : FS) (tr : List FS) (n : Nat) (ct : String) (b : Crawler.Body)
    (w : Bool) (henv : env idx = .resp ct b w)
    (hct : Pystr.startsWithS ct "image/" = false) :
    Sifang.download_attempts env (fuel + 1) idx fs tr n =
      ⟨.failed, fs, tr, n + 1⟩ := by
  simp only [Sifang.download_attempts, henv, hct, Bool.false_eq_true, if_false]

/-- C2 (amended, sifang image downloads): starting with nothing at the
destination, a run that does not return success leaves the destination
untouched — the final state and every intermediate state keep `dest`
absent, only the temp path is ever written — while a successful run ends
with a decodable image at the destination and no temp file; the loop makes
at most 5 fetch attempts.  The ku1372 archive download cited by the same
claim has no temporary path at all; see the counterexample. -/
theorem c2_sifang_atomic_write (verify : Bool) (env : Nat → Sifang.Outcome)
    (t : FileState) :
    ((Sifang.download_image verify env ⟨.absent, t⟩).result ≠ .ok →
      (Sifang.download_image verify env ⟨.absent, t⟩).fs.dest = .absent ∧
      ∀ s ∈ (Sifang.download_image verify env ⟨.absent, t⟩).states,
        s.dest = .absent) ∧
    ((Sifang.download_image verify env ⟨.absent, t⟩).result = .ok →
      (Sifang.download_image verify env ⟨.absent, t⟩).fs =
        ⟨.written .validImage, .absent⟩) ∧
    (Sifang.download_image verify env ⟨.absent, t⟩).fetches ≤ 5 := by
  rw [sifang_download_image_absent]
  refine ⟨?_, ?_, ?_⟩
  · intro hres
    exact sifang_attempts_not_ok env 5 0 ⟨.absent, t⟩ [] 0 (by simp) hres
  · intro hres
    exact sifang_attempts_ok env 5 0 ⟨.absent, t⟩ [] 0 hres
  · exact sifang_attempts_fetches env 5 0 ⟨.absent, t⟩ [] 0

/-- C2 witness: a run with a good first response succeeds, installs the
valid image at the destination, and stays within the fetch bound. -/
theorem c2_sifang_atomic_write_witness :
    (Sifang.download_image true
        (fun _ => Sifang.Outcome.resp "image/jpeg" .validImage true)
        ⟨.absent, .absent⟩).result = .ok ∧
    (Sifang.download_image true
        (fun _ => Sifang.Outcome.resp "image/jpeg" .validImage true)
        ⟨.absent, .absent⟩).fs = ⟨.written .validImage, .absent⟩ ∧
    (Sifang.download_image true
        (fun _ => Sifang.Outcome.resp "image/jpeg" .validImage true)
        ⟨.absent, .absent⟩).fetches ≤ 5 := by
  have h := c2_sifang_atomic_write true
    (fun _ => Sifang.Outcome.resp "image/jpeg" .validImage true) .absent
  exact ⟨by decide, h.2.1 (by decide), h.2.2⟩

/-- C2 counterexample: the ku1372 `download_album_wrapper` streams the
response body directly to the final destination path; a simulated crash in
the middle of the write leaves a half-written file at the destination —
the resource is not written to a temporary path first, and a failure
mid-download does leave a file at the final destination. -/
theorem c2_ku_direct_write_counterexample :
    (Ku.download_album_wrapper (fun _ => Ku.KuOutcome.writeCrash)).result =
      none ∧
    (Ku.download_album_wrapper (fun _ => Ku.KuOutcome.writeCrash)).dest =
      Ku.KuFile.halfWritten := by
  decide

/-- C3 (amended): the 美图色色 `_get_response` is a bounded retry loop —
at most 5 attempts, and when all of them fail it escalates `None` to the
caller.  The sifang `retry_request` named by the same claim is not: under
persistent transient exceptions it blocks on `input()` when the counter
reaches the bound and resets the counter, so it is still looping after any
number of iterations and never produces a failure result; only the
443-status branch can exhaust the counter and fall out with `None`. -/
theorem c3_retry_bounds (envM : Nat → Bool) (fuel : Nat) :
    (Meitu.get_response envM).2 ≤ 5 ∧
    ((∀ i, i < 5 → envM i = false) → (Meitu.get_response envM).1 = none) ∧
    Sifang.retry_request (fun _ => .exn) fuel = .running ∧
    Sifang.retry_request (fun _ => .status443) 10 = .returned none := by
  refine ⟨meitu_get_response_attempts envM 5 0, ?_, ?_, by decide⟩
  · intro h
    exact meitu_get_response_none envM 5 0 (fun j hj => by simpa using h j hj)
  · exact sifang_retry_allExn fuel 0 0 (by omega)

/-- C3 witness: with every attempt failing, `_get_response` stops at 5
attempts with `None`, while the sifang loop is still running after 37
iterations. -/
theorem c3_retry_bounds_witness :
    (Meitu.get_response (fun _ => false)).2 ≤ 5 ∧
    (Meitu.get_response (fun _ => false)).1 = none ∧
    Sifang.retry_request (fun _ => .exn) 37 = .running := by
  have h := c3_retry_bounds (fun _ => false) 37
  exact ⟨h.1, h.2.1 (fun _ _ => rfl), h.2.2.1⟩

/-- C3 counterexample: a request whose every attempt raises a transient
exception — after 50 loop iterations, ten times the configured bound of 5
attempts, the sifang retry loop has neither stopped nor escalated any
failure result, because reaching the bound blocks on operator `input()`
and resets the counter (`sifang_retry_allExn` extends this to every number
of iterations). -/
theorem c3_unbounded_retry_counterexample :
    Sifang.retry_request (fun _ => Sifang.ReqOutcome.exn) 50 =
      Sifang.ReqRunResult.running := by
  decide

/-- C4 (amended, sifang and 美图色色 image downloads): a response carrying a
non-image content type makes the attempt report failure immediately — one
fetch, no retry, no write to any path — and `download_album` records the
failed item; the ku1372 archive downloader cited by the same claim instead
writes the body to the destination before sniffing it and retries — see
the counterexample. -/
theorem c4_nonimage_content_type (env : Nat → Sifang.Outcome) (ct : String)
    (b : Crawler.Body) (w verify : Bool) (t : FileState)
    (hct : Pystr.startsWithS ct "image/" = false) (henv : env 0 = .resp ct b w)
    (st : Sifang.AlbumState) (albumUrl imgUrl : String) (urls : List String)
    (results : String → Bool) (hmem : imgUrl ∈ urls)
    (hfail : results imgUrl = false) (r : Meitu.HttpResponse)
    (hr : Pystr.startsWithS r.contentType "image/" = false) (wM : Bool)
    (tM : FileState) :
    Sifang.download_image verify env ⟨.absent, t⟩ =
      ⟨.failed, ⟨.absent, t⟩, [], 1⟩ ∧
    imgUrl ∈
      (Sifang.download_album st albumUrl false urls results).2.failedImages ∧
    Meitu.download_image verify (some r) wM ⟨.absent, tM⟩ imgUrl =
      ⟨false, ⟨.absent, tM⟩, 1, [imgUrl]⟩ := by
  refine ⟨?_, ?_, ?_⟩
  · rw [sifang_download_image_absent]
    have h5 : (5 : Nat) = 4 + 1 := rfl
    rw [h5, sifang_attempts_nonimage env 4 0 ⟨.absent, t⟩ [] 0 ct b w henv hct]
  · refine List.mem_append.mpr (Or.inr (List.mem_filter.mpr ⟨hmem, ?_⟩))
    simp [hfail]
  · simp [Meitu.download_image, hr]

/-- C4 witness: a concrete `text/html` response at each of the three
places. -/
theorem c4_nonimage_content_type_witness :
    Pystr.startsWithS "text/html" "image/" = false ∧
    Sifang.download_image true
        (fun _ => Sifang.Outcome.resp "text/html" .htmlPage true)
        ⟨.absent, .absent⟩ = ⟨.failed, ⟨.absent, .absent⟩, [], 1⟩ ∧
    "img1" ∈ (Sifang.download_album ⟨[], [], []⟩ "a" false ["img1"]
        (fun _ => false)).2.failedImages ∧
    Meitu.download_image true (some ⟨"text/html", .htmlPage⟩) true
        ⟨.absent, .absent⟩ "img1" =
      ⟨false, ⟨.absent, .absent⟩, 1, ["img1"]⟩ := by
  have h := c4_nonimage_content_type
    (fun _ => Sifang.Outcome.resp "text/html" .htmlPage true)
    "text/html" .htmlPage true true .absent (by decide) rfl
    ⟨[], [], []⟩ "a" "img1" ["img1"] (fun _ => false) (by decide) rfl
    ⟨"text/html", .htmlPage⟩ (by decide) true .absent
  exact ⟨by decide, h.1, h.2.1, h.2.2⟩

/-- C4 counterexample: the ku1372 wrapper given an HTML error page (2000
declared and received bytes): the body is written at the final destination
path in every attempt — the saved HTML file appears in the state trace —
and the attempt is retried until the 5-attempt bound, refuting "reports
failure for that attempt without retrying it ... no file is ever written
at the final destination path". -/
theorem c4_ku_html_written_and_retried_counterexample :
    (Ku.download_album_wrapper (fun _ => Ku.KuOutcome.resp true 2000 2000)).result =
      some false ∧
    (Ku.download_album_wrapper (fun _ => Ku.KuOutcome.resp true 2000 2000)).fetches = 5 ∧
    Ku.KuFile.saved true 2000 ∈
      (Ku.download_album_wrapper (fun _ => Ku.KuOutcome.resp true 2000 2000)).states := by
  decide

/-- C7 (amended): the 美图色色 paginator visits exactly pages `1 .. N` of a
synthetic `N`-page listing whose page `N` has no next link, and — because
of its `processed_urls` guard — never revisits a page in any run.  The
sifang `get_next_page` named by the same claim deterministically yields
no-next, an explicit link, or a synthesized link, but the listing loop
keeps no visited set and the arrow heuristic can hand it an
already-visited URL; see the counterexample. -/
theorem c7_paginator_termination (N fuel : Nat) (h1 : 1 ≤ N) (h2 : N ≤ fuel)
    (nextOf : Nat → Option Nat) (fuel2 : Nat) (processed : List Nat)
    (cur : Option Nat) :
    Meitu.visit (Meitu.chain N) fuel [] (some 1) = List.range' 1 N ∧
    (Meitu.visit nextOf fuel2 processed cur).Nodup := by
  constructor
  · have h := meitu_visit_chain (N - 1) 1 fuel [] (by simp) (by omega)
    have he : 1 + (N - 1) = N := by omega
    rw [he] at h
    have he2 : N - 1 + 1 = N := by omega
    rw [he2] at h
    exact h
  · exact (meitu_visit_nodup nextOf fuel2 processed cur).1

/-- C7 witness: the 3-page chain is visited as exactly `[1, 2, 3]`, and a
self-looping next function still yields a duplicate-free visit list. -/
theorem c7_paginator_termination_witness :
    Meitu.visit (Meitu.chain 3) 5 [] (some 1) = List.range' 1 3 ∧
    (Meitu.visit (fun _ => some 0) 4 [] (some 0)).Nodup := by
  exact c7_paginator_termination 3 5 (by omega) (by omega) (fun _ => some 0) 4 []
    (some 0)

/-- C7 counterexample: a sifang listing page carrying an anchor whose
serialization contains the word "more" and whose href resolves back to the
current listing URL — `get_next_page` returns the current URL itself (the
arrow heuristic matches first and only the domain is checked), and the
listing loop, having no visited set, visits the same URL over and over. -/
theorem c7_sifang_revisit_counterexample :
    Sifang.get_next_page "https://sifang.lat/?page=1"
        [⟨"<a href=\"?page=1\">more</a>", some 1, "https://sifang.lat/?page=1"⟩] =
      some "https://sifang.lat/?page=1" ∧
    Sifang.sifang_visit
        (fun _ =>
          [⟨"<a href=\"?page=1\">more</a>", some 1, "https://sifang.lat/?page=1"⟩])
        (some "https://sifang.lat/?page=1") 3 =
      ["https://sifang.lat/?page=1", "https://sifang.lat/?page=1",
       "https://sifang.lat/?page=1"] ∧
    ¬ (Sifang.sifang_visit
        (fun _ =>
          [⟨"<a href=\"?page=1\">more</a>", some 1, "https://sifang.lat/?page=1"⟩])
        (some "https://sifang.lat/?page=1") 3).Nodup := by
  refine ⟨rfl, rfl, by decide⟩

/-- C8: both halves of the idempotence argument — an album url already in
the progress record never passes `crawl_albums`' queueing filter, and an
existing decodable image file makes `download_image` report success with
zero fetches in either verification mode, so an unchanged second run
re-downloads nothing. -/
theorem c8_second_run_skips (completed albums : List String) (u : String)
    (h : u ∈ Sifang.enqueue_albums completed albums) (verify : Bool)
    (env : Nat → Sifang.Outcome) (t : FileState) :
    u ∉ completed ∧
    Sifang.download_image verify env ⟨.written .validImage, t⟩ =
      ⟨.ok, ⟨.written .validImage, t⟩, [], 0⟩ := by
  constructor
  · have hf := (List.mem_filter.mp h).2
    simpa using hf
  · cases verify with
    | false => rfl
    | true => rfl

/-- C8 witness: a record containing album "a" filters it out while "b"
passes, and a present valid image is skipped with zero fetches. -/
theorem c8_second_run_skips_witness :
    "b" ∉ (["a"] : List String) ∧
    Sifang.download_image true (fun _ => Sifang.Outcome.raisedExn)
        ⟨.written .validImage, .absent⟩ =
      ⟨.ok, ⟨.written .validImage, .absent⟩, [], 0⟩ := by
  have h := c8_second_run_skips ["a"] ["a", "b"] "b" (by decide) true
    (fun _ => Sifang.Outcome.raisedExn) .absent
  exact h
